import Mathlib

/-!
Shallow embedding of the `annuaire` contact-directory package
(`src/annuaire/annuaire.go`) and verification of its behavioural claims.

Modelling conventions:
* The Go map `map[string]Contact` is embedded as an association list
  `List (String × Contact)`; list order stands for one admissible
  iteration order of the map (Go leaves the order unspecified).
* Methods that mutate the receiver and return an `error` are embedded as
  functions returning the post-state together with `Option String`
  (`none` = nil error), mirroring the Go control flow: every `return err`
  path returns the store unchanged.
* The file system is embedded as `FS : String → Option FileData`, where a
  file is either a successfully parsed JSON array of contacts or
  malformed content (the two outcomes of `json.Unmarshal` relevant here).
-/

/-- `Contact` record (annuaire.go lines 15–19): last name, first name, phone. -/
structure Contact where
  Name  : String
  First : String
  Phone : String
deriving DecidableEq

/-- `Directory` (annuaire.go lines 25–27): the in-memory store, a map from
composite key to `Contact`, embedded as an association list. -/
structure Directory where
  contacts : List (String × Contact)
deriving DecidableEq

/-- `NewDirectory` (lines 39–43): the empty directory. -/
def NewDirectory : Directory := ⟨[]⟩

/-- The composite key `fmt.Sprintf("%s_%s", name, phone)` (line 71). -/
def compositeKey (name phone : String) : String := name ++ "_" ++ phone

/-- Go map membership test `_, exists := d.contacts[key]` (line 74). -/
def hasKey : List (String × Contact) → String → Bool
  | [], _ => false
  | e :: rest, k => if e.1 = k then true else hasKey rest k

/-- `AddContact` (lines 63–86): validates non-emptiness, rejects an existing
composite key, otherwise inserts the new contact under `name_phone`. -/
def AddContact (d : Directory) (name first phone : String) :
    Directory × Option String :=
  if name = "" ∨ first = "" ∨ phone = "" then
    (d, some "all fields are required")
  else if hasKey d.contacts (compositeKey name phone) then
    (d, some "a contact with this name and phone already exists")
  else
    (⟨d.contacts ++ [(compositeKey name phone, ⟨name, first, phone⟩)]⟩, none)

/-- The loop body of `SearchContact` (lines 113–124): first contact whose
`Name`, `First` or `Phone` equals the term. -/
def searchLoop (term : String) : List (String × Contact) → Option Contact
  | [] => none
  | e :: rest =>
    if e.2.Name = term ∨ e.2.First = term ∨ e.2.Phone = term then some e.2
    else searchLoop term rest

/-- `SearchContact` (lines 106–129): first exact match on any field, or the
zero-value `Contact` and `false`. -/
def SearchContact (d : Directory) (term : String) : Contact × Bool :=
  match searchLoop term d.contacts with
  | some c => (c, true)
  | none => (⟨"", "", ""⟩, false)

/-- The loop of `DeleteContact` (lines 215–222): remove the first entry whose
contact has the given last name; `none` when no entry matches. -/
def deleteLoop (name : String) :
    List (String × Contact) → Option (List (String × Contact))
  | [] => none
  | e :: rest =>
    if e.2.Name = name then some rest
    else (deleteLoop name rest).map (e :: ·)

/-- `DeleteContact` (lines 211–229). -/
def DeleteContact (d : Directory) (name : String) : Directory × Option String :=
  match deleteLoop name d.contacts with
  | some l => (⟨l⟩, none)
  | none => (d, some "contact not found")

/-- The field mutation of `UpdateContact` (lines 256–263): overwrite `First`
and `Phone` only when the new value is non-empty; `Name` is untouched. -/
def applyUpdate (c : Contact) (newFirst newPhone : String) : Contact :=
  { c with First := if newFirst ≠ "" then newFirst else c.First
           Phone := if newPhone ≠ "" then newPhone else c.Phone }

/-- The loop of `UpdateContact` (lines 254–268): mutate the first entry whose
contact has the given last name, keeping its original key. -/
def updateLoop (name newFirst newPhone : String) :
    List (String × Contact) → Option (List (String × Contact))
  | [] => none
  | (k, c) :: rest =>
    if c.Name = name then some ((k, applyUpdate c newFirst newPhone) :: rest)
    else (updateLoop name newFirst newPhone rest).map ((k, c) :: ·)

/-- `UpdateContact` (lines 252–271). -/
def UpdateContact (d : Directory) (name newFirst newPhone : String) :
    Directory × Option String :=
  match updateLoop name newFirst newPhone d.contacts with
  | some l => (⟨l⟩, none)
  | none => (d, some "contact not found")

/-- `ContactCount` (lines 285–287). -/
def ContactCount (d : Directory) : Nat := d.contacts.length

/-- `ListContacts` (lines 183–192): the stored contacts as a slice, in store
iteration order. -/
def ListContacts (d : Directory) : List Contact := d.contacts.map Prod.snd

/-- A file's content, as seen through `json.Unmarshal` into `[]Contact`:
either a well-formed JSON array of contacts or malformed data. -/
inductive FileData where
  | jsonContacts : List Contact → FileData
  | malformed : FileData
deriving DecidableEq

/-- The file system: a partial map from paths to file contents. -/
def FS : Type := String → Option FileData

/-- Go map assignment `m[k] = c` (line 372): overwrite the entry with key `k`
in place if present, otherwise add a new entry. -/
def mapInsert : List (String × Contact) → String → Contact → List (String × Contact)
  | [], k, c => [(k, c)]
  | e :: rest, k, c => if e.1 = k then (k, c) :: rest else e :: mapInsert rest k c

/-- The rebuild loop of `ImportFromJSON` (lines 368–373): starting from an
empty map, store each imported contact under the composite key rebuilt from
its own `Name` and `Phone`. -/
def rebuildStore (cs : List Contact) : List (String × Contact) :=
  cs.foldl (fun acc c => mapInsert acc (compositeKey c.Name c.Phone) c) []

/-- `ExportToJSON` (lines 307–329): write the store, as a JSON array of the
contacts in iteration order, to the given path (directory creation and the
file write are modelled as succeeding). -/
def ExportToJSON (fs : FS) (d : Directory) (filename : String) :
    FS × Option String :=
  (fun p => if p = filename then some (.jsonContacts (ListContacts d)) else fs p,
   none)

/-- `ImportFromJSON` (lines 349–376): distinct error when the file does not
exist, a parse error on malformed content, otherwise replace the whole store
with the imported contacts re-keyed from their own fields. -/
def ImportFromJSON (fs : FS) (d : Directory) (filename : String) :
    Directory × Option String :=
  match fs filename with
  | none => (d, some "file not found")
  | some .malformed => (d, some "unmarshal error")
  | some (.jsonContacts cs) => (⟨rebuildStore cs⟩, none)

/-- `LoadFromJSON` (lines 504–510): legacy variant that treats a missing file
as a silent no-op success, otherwise defers to `ImportFromJSON`. -/
def LoadFromJSON (fs : FS) (d : Directory) (filename : String) :
    Directory × Option String :=
  match fs filename with
  | none => (d, none)
  | some _ => ImportFromJSON fs d filename

/-- The state-changing operations of the directory, for reachability
statements. `importJSON cs` is a successful `ImportFromJSON` of a file that
parses to `cs` (a failed import leaves the store unchanged). -/
inductive Op where
  | add (name first phone : String)
  | update (name newFirst newPhone : String)
  | delete (name : String)
  | importJSON (cs : List Contact)

/-- Whether an operation is an `UpdateContact` call. -/
def Op.isUpdate : Op → Bool
  | .update _ _ _ => true
  | _ => false

/-- Run one operation, keeping the post-state (errors leave it unchanged). -/
def applyOp (d : Directory) : Op → Directory
  | .add n f p => (AddContact d n f p).1
  | .update n nf np => (UpdateContact d n nf np).1
  | .delete n => (DeleteContact d n).1
  | .importJSON cs =>
      (ImportFromJSON (fun _ => some (.jsonContacts cs)) d "data/contacts.json").1

/-- Run a sequence of operations from the empty directory. -/
def runOps (ops : List Op) : Directory := ops.foldl applyOp NewDirectory

/-- Structural store invariant: every entry is keyed by the composite key of
its own contact, and keys are pairwise distinct. -/
def GoodStore (l : List (String × Contact)) : Prop :=
  (∀ e ∈ l, e.1 = compositeKey e.2.Name e.2.Phone) ∧ (l.map Prod.fst).Nodup

/-- No two stored contacts agree on both `Name` and `Phone`. -/
def NoDupNamePhone (d : Directory) : Prop :=
  d.contacts.Pairwise fun e₁ e₂ => ¬(e₁.2.Name = e₂.2.Name ∧ e₁.2.Phone = e₂.2.Phone)

/-! ### Helper lemmas about the loops and the store invariant -/

theorem hasKey_eq_false {l : List (String × Contact)} {k : String} :
    hasKey l k = false ↔ ∀ e ∈ l, e.1 ≠ k := by
  induction l with
  | nil => simp [hasKey]
  | cons e rest ih => by_cases h : e.1 = k <;> simp [hasKey, h, ih]

theorem hasKey_eq_true {l : List (String × Contact)} {k : String} :
    hasKey l k = true ↔ ∃ e ∈ l, e.1 = k := by
  induction l with
  | nil => simp [hasKey]
  | cons e rest ih => by_cases h : e.1 = k <;> simp [hasKey, h, ih]

theorem deleteLoop_eq_none {name : String} {l : List (String × Contact)} :
    deleteLoop name l = none ↔ ∀ e ∈ l, e.2.Name ≠ name := by
  induction l with
  | nil => simp [deleteLoop]
  | cons e rest ih => by_cases h : e.2.Name = name <;> simp [deleteLoop, h, ih]

theorem deleteLoop_eq_some {name : String} {l l' : List (String × Contact)}
    (h : deleteLoop name l = some l') :
    ∃ l₁ k c l₂, l = l₁ ++ (k, c) :: l₂ ∧ (∀ e ∈ l₁, e.2.Name ≠ name) ∧
      c.Name = name ∧ l' = l₁ ++ l₂ := by
  induction l generalizing l' with
  | nil => exact absurd h (by simp [deleteLoop])
  | cons e rest ih =>
    rw [show deleteLoop name (e :: rest)
        = if e.2.Name = name then some rest
          else (deleteLoop name rest).map (e :: ·) from rfl] at h
    by_cases he : e.2.Name = name
    · rw [if_pos he, Option.some_inj] at h
      exact ⟨[], e.1, e.2, rest, by simp, by simp, he, h.symm⟩
    · rw [if_neg he] at h
      cases hd : deleteLoop name rest with
      | none => rw [hd] at h; exact absurd h (by simp)
      | some a =>
        rw [hd, Option.map_some'] at h
        obtain rfl : e :: a = l' := Option.some_inj.mp h
        obtain ⟨l₁, k, c, l₂, h1, h2, h3, h4⟩ := ih hd
        refine ⟨e :: l₁, k, c, l₂, by simp [h1], ?_, h3, by simp [h4]⟩
        intro e' he'
        rcases List.mem_cons.mp he' with rfl | he'
        · exact he
        · exact h2 e' he'

theorem updateLoop_eq_none {name nf np : String} {l : List (String × Contact)} :
    updateLoop name nf np l = none ↔ ∀ e ∈ l, e.2.Name ≠ name := by
  induction l with
  | nil => simp [updateLoop]
  | cons e rest ih =>
    by_cases h : e.2.Name = name <;> simp [updateLoop, h, ih]

theorem updateLoop_eq_some {name nf np : String} {l l' : List (String × Contact)}
    (h : updateLoop name nf np l = some l') :
    ∃ l₁ k c l₂, l = l₁ ++ (k, c) :: l₂ ∧ (∀ e ∈ l₁, e.2.Name ≠ name) ∧
      c.Name = name ∧ l' = l₁ ++ (k, applyUpdate c nf np) :: l₂ := by
  induction l generalizing l' with
  | nil => exact absurd h (by simp [updateLoop])
  | cons e rest ih =>
    rw [show updateLoop name nf np (e :: rest)
        = if e.2.Name = name then some ((e.1, applyUpdate e.2 nf np) :: rest)
          else (updateLoop name nf np rest).map ((e.1, e.2) :: ·) from rfl] at h
    by_cases he : e.2.Name = name
    · rw [if_pos he, Option.some_inj] at h
      exact ⟨[], e.1, e.2, rest, by simp, by simp, he, h.symm⟩
    · rw [if_neg he] at h
      cases hd : updateLoop name nf np rest with
      | none => rw [hd] at h; exact absurd h (by simp)
      | some a =>
        rw [hd, Option.map_some'] at h
        obtain rfl : (e.1, e.2) :: a = l' := Option.some_inj.mp h
        obtain ⟨l₁, k, c, l₂, h1, h2, h3, h4⟩ := ih hd
        refine ⟨e :: l₁, k, c, l₂, by simp [h1], ?_, h3, by simp [h4]⟩
        intro e' he'
        rcases List.mem_cons.mp he' with rfl | he'
        · exact he
        · exact h2 e' he'

theorem searchLoop_eq_none {term : String} {l : List (String × Contact)} :
    searchLoop term l = none ↔
      ∀ e ∈ l, ¬(e.2.Name = term ∨ e.2.First = term ∨ e.2.Phone = term) := by
  induction l with
  | nil => simp [searchLoop]
  | cons e rest ih =>
    rw [show searchLoop term (e :: rest)
        = if e.2.Name = term ∨ e.2.First = term ∨ e.2.Phone = term then some e.2
          else searchLoop term rest from rfl]
    by_cases h : e.2.Name = term ∨ e.2.First = term ∨ e.2.Phone = term
    · rw [if_pos h]
      constructor
      · intro hh; cases hh
      · intro hh; exact absurd h (hh e (List.mem_cons_self _ _))
    · rw [if_neg h, ih]
      constructor
      · intro hh e' he'
        rcases List.mem_cons.mp he' with rfl | he'
        · exact h
        · exact hh e' he'
      · intro hh e' he'
        exact hh e' (List.mem_cons_of_mem _ he')

theorem searchLoop_eq_some {term : String} {l : List (String × Contact)} {c : Contact}
    (h : searchLoop term l = some c) :
    (∃ e ∈ l, e.2 = c) ∧ (c.Name = term ∨ c.First = term ∨ c.Phone = term) := by
  induction l with
  | nil => exact absurd h (by simp [searchLoop])
  | cons e rest ih =>
    rw [show searchLoop term (e :: rest)
        = if e.2.Name = term ∨ e.2.First = term ∨ e.2.Phone = term then some e.2
          else searchLoop term rest from rfl] at h
    by_cases he : e.2.Name = term ∨ e.2.First = term ∨ e.2.Phone = term
    · rw [if_pos he, Option.some_inj] at h
      exact ⟨⟨e, List.mem_cons_self _ _, h⟩, h ▸ he⟩
    · rw [if_neg he] at h
      obtain ⟨⟨e', he', hc⟩, hm⟩ := ih h
      exact ⟨⟨e', List.mem_cons_of_mem _ he', hc⟩, hm⟩

theorem mapInsert_of_fresh {l : List (String × Contact)} {k : String} {c : Contact}
    (h : ∀ e ∈ l, e.1 ≠ k) : mapInsert l k c = l ++ [(k, c)] := by
  induction l with
  | nil => rfl
  | cons e rest ih =>
    have h1 : e.1 ≠ k := h e (by simp)
    simp [mapInsert, h1, ih fun e' he' => h e' (by simp [he'])]

theorem mem_mapInsert {l : List (String × Contact)} {k : String} {c : Contact}
    {e : String × Contact} (h : e ∈ mapInsert l k c) : e ∈ l ∨ e = (k, c) := by
  induction l with
  | nil => simpa [mapInsert] using h
  | cons e₀ rest ih =>
    rw [show mapInsert (e₀ :: rest) k c
        = if e₀.1 = k then (k, c) :: rest else e₀ :: mapInsert rest k c from rfl] at h
    by_cases h0 : e₀.1 = k
    · rw [if_pos h0] at h
      rcases List.mem_cons.mp h with h | h
      · exact Or.inr h
      · exact Or.inl (List.mem_cons_of_mem _ h)
    · rw [if_neg h0] at h
      rcases List.mem_cons.mp h with h | h
      · exact Or.inl (h ▸ List.mem_cons_self _ _)
      · rcases ih h with h | h
        · exact Or.inl (List.mem_cons_of_mem _ h)
        · exact Or.inr h

theorem mem_keys_mapInsert {l : List (String × Contact)} {k x : String} {c : Contact}
    (h : x ∈ (mapInsert l k c).map Prod.fst) : x ∈ l.map Prod.fst ∨ x = k := by
  obtain ⟨e, he, rfl⟩ := List.mem_map.mp h
  rcases mem_mapInsert he with h | h
  · exact Or.inl (List.mem_map_of_mem _ h)
  · exact Or.inr (by rw [h])

theorem nodupKeys_mapInsert {l : List (String × Contact)} {k : String} {c : Contact}
    (h : (l.map Prod.fst).Nodup) : ((mapInsert l k c).map Prod.fst).Nodup := by
  induction l with
  | nil => simp [mapInsert]
  | cons e rest ih =>
    rw [show mapInsert (e :: rest) k c
        = if e.1 = k then (k, c) :: rest else e :: mapInsert rest k c from rfl]
    rw [List.map_cons, List.nodup_cons] at h
    by_cases h0 : e.1 = k
    · rw [if_pos h0, List.map_cons, List.nodup_cons]
      exact ⟨h0 ▸ h.1, h.2⟩
    · rw [if_neg h0, List.map_cons, List.nodup_cons]
      refine ⟨fun hmem => ?_, ih h.2⟩
      rcases mem_keys_mapInsert hmem with hmem | hmem
      · exact h.1 hmem
      · exact h0 hmem

theorem goodStore_foldl_rebuild (cs : List Contact) (acc : List (String × Contact))
    (h : GoodStore acc) :
    GoodStore (cs.foldl (fun a c => mapInsert a (compositeKey c.Name c.Phone) c) acc) := by
  induction cs generalizing acc with
  | nil => exact h
  | cons c rest ih =>
    refine ih _ ⟨fun e he => ?_, nodupKeys_mapInsert h.2⟩
    rcases mem_mapInsert he with he | he
    · exact h.1 e he
    · simp [he]

theorem goodStore_rebuildStore (cs : List Contact) : GoodStore (rebuildStore cs) :=
  goodStore_foldl_rebuild cs [] ⟨by simp, by simp⟩

theorem mem_foldl_rebuild {cs : List Contact} {acc : List (String × Contact)}
    {e : String × Contact}
    (h : e ∈ cs.foldl (fun a c => mapInsert a (compositeKey c.Name c.Phone) c) acc) :
    e ∈ acc ∨ e.2 ∈ cs := by
  induction cs generalizing acc with
  | nil => exact Or.inl h
  | cons c rest ih =>
    rcases ih h with h' | h'
    · rcases mem_mapInsert h' with h'' | h''
      · exact Or.inl h''
      · exact Or.inr (by simp [h''])
    · exact Or.inr (List.mem_cons_of_mem _ h')

theorem mem_rebuildStore {cs : List Contact} {e : String × Contact}
    (h : e ∈ rebuildStore cs) :
    e.1 = compositeKey e.2.Name e.2.Phone ∧ e.2 ∈ cs := by
  refine ⟨(goodStore_rebuildStore cs).1 e h, ?_⟩
  rcases mem_foldl_rebuild h with h' | h'
  · simp at h'
  · exact h'

theorem foldl_rebuild_of_nodup (cs : List Contact) (acc : List (String × Contact))
    (h : (acc.map Prod.fst ++ cs.map fun c => compositeKey c.Name c.Phone).Nodup) :
    cs.foldl (fun a c => mapInsert a (compositeKey c.Name c.Phone) c) acc
      = acc ++ cs.map fun c => (compositeKey c.Name c.Phone, c) := by
  induction cs generalizing acc with
  | nil => simp
  | cons c rest ih =>
    have hdisj := (List.nodup_append.mp h).2.2
    have hfresh : ∀ e ∈ acc, e.1 ≠ compositeKey c.Name c.Phone := by
      intro e he heq
      exact hdisj (heq ▸ List.mem_map_of_mem Prod.fst he) (by simp)
    rw [List.foldl_cons, mapInsert_of_fresh hfresh,
      ih (acc ++ [(compositeKey c.Name c.Phone, c)]) (by simpa [List.append_assoc] using h)]
    simp

theorem rebuildStore_of_nodup {cs : List Contact}
    (h : (cs.map fun c => compositeKey c.Name c.Phone).Nodup) :
    rebuildStore cs = cs.map fun c => (compositeKey c.Name c.Phone, c) := by
  simpa using foldl_rebuild_of_nodup cs [] (by simpa using h)

theorem goodStore_addContact (d : Directory) (n f p : String)
    (h : GoodStore d.contacts) : GoodStore ((AddContact d n f p).1).contacts := by
  rw [show AddContact d n f p
      = if n = "" ∨ f = "" ∨ p = "" then (d, some "all fields are required")
        else if hasKey d.contacts (compositeKey n p)
          then (d, some "a contact with this name and phone already exists")
          else (⟨d.contacts ++ [(compositeKey n p, ⟨n, f, p⟩)]⟩, none) from rfl]
  by_cases h1 : n = "" ∨ f = "" ∨ p = ""
  · rwa [if_pos h1]
  · rw [if_neg h1]
    by_cases h2 : hasKey d.contacts (compositeKey n p) = true
    · rwa [if_pos h2]
    · have hfresh : ∀ e ∈ d.contacts, e.1 ≠ compositeKey n p :=
        hasKey_eq_false.mp (by simpa using h2)
      rw [if_neg h2]
      refine ⟨fun e he => ?_, ?_⟩
      · rcases List.mem_append.mp he with he | he
        · exact h.1 e he
        · simp at he
          simp [he]
      · rw [List.map_append, List.nodup_append]
        refine ⟨h.2, by simp, fun x hx hx' => ?_⟩
        obtain ⟨e, he, rfl⟩ := List.mem_map.mp hx
        exact hfresh e he (by simpa using hx')

theorem deleteLoop_sublist {name : String} {l l' : List (String × Contact)}
    (h : deleteLoop name l = some l') : l'.Sublist l := by
  obtain ⟨l₁, k, c, l₂, rfl, -, -, rfl⟩ := deleteLoop_eq_some h
  exact ((l₂.sublist_cons_self (k, c)).append_left l₁)

theorem goodStore_deleteContact (d : Directory) (n : String)
    (h : GoodStore d.contacts) : GoodStore ((DeleteContact d n).1).contacts := by
  cases hdl : deleteLoop n d.contacts with
  | none => simpa [DeleteContact, hdl] using h
  | some l' =>
    have hsub := deleteLoop_sublist hdl
    simp only [DeleteContact, hdl]
    exact ⟨fun e he => h.1 e (hsub.subset he), (hsub.map Prod.fst).nodup h.2⟩

theorem goodStore_importFromJSON (fs : FS) (d : Directory) (fn : String)
    (h : GoodStore d.contacts) : GoodStore ((ImportFromJSON fs d fn).1).contacts := by
  cases hfd : fs fn with
  | none => simpa [ImportFromJSON, hfd] using h
  | some fd =>
    cases fd with
    | jsonContacts cs =>
      simpa [ImportFromJSON, hfd] using goodStore_rebuildStore cs
    | malformed => simpa [ImportFromJSON, hfd] using h

theorem goodStore_applyOp (d : Directory) (op : Op) (hop : op.isUpdate = false)
    (h : GoodStore d.contacts) : GoodStore ((applyOp d op).contacts) := by
  cases op with
  | add n f p => exact goodStore_addContact d n f p h
  | update n nf np => simp [Op.isUpdate] at hop
  | delete n => exact goodStore_deleteContact d n h
  | importJSON cs => exact goodStore_importFromJSON _ d _ h

theorem goodStore_runOps (ops : List Op) (h : ∀ op ∈ ops, op.isUpdate = false) :
    GoodStore ((runOps ops).contacts) := by
  suffices H : ∀ d : Directory, GoodStore d.contacts →
      GoodStore ((ops.foldl applyOp d).contacts) from
    H NewDirectory ⟨by simp [NewDirectory], by simp [NewDirectory]⟩
  induction ops with
  | nil => exact fun d hd => hd
  | cons op rest ih =>
    intro d hd
    exact ih (fun o ho => h o (List.mem_cons_of_mem _ ho)) _
      (goodStore_applyOp d op (h op (List.mem_cons_self _ _)) hd)

theorem noDupNamePhone_of_goodStore (d : Directory) (h : GoodStore d.contacts) :
    NoDupNamePhone d := by
  have hp : d.contacts.Pairwise fun a b => a.1 ≠ b.1 := List.pairwise_map.mp h.2
  exact List.Pairwise.imp_of_mem
    (fun {a b} ha hb hne hc =>
      hne (by rw [h.1 a ha, h.1 b hb, hc.1, hc.2])) hp

/-! ### Claim theorems -/

/-- Claim C1 (counterexample): the claim as stated is false on the code.
The state reached from the empty directory by AddContact("A","x","1"),
then UpdateContact("A","","2") — which overwrites the phone but leaves the
contact under its original key "A_1" — then AddContact("A","y","2"),
stores two contacts that agree on both Name ("A") and Phone ("2"). Every
step of this run is independent of map-iteration order: the update acts on
a one-element store, and each add only tests key membership. -/
theorem c1_counterexample :
    ¬ NoDupNamePhone
      (runOps [.add "A" "x" "1", .update "A" "" "2", .add "A" "y" "2"]) := by
  intro h
  have h2 : (runOps [.add "A" "x" "1", .update "A" "" "2", .add "A" "y" "2"]).contacts
      = [("A_1", ⟨"A", "x", "2"⟩), ("A_2", ⟨"A", "y", "2"⟩)] := by decide
  unfold NoDupNamePhone at h
  rw [h2] at h
  exact (List.pairwise_cons.mp h).1 ("A_2", ⟨"A", "y", "2"⟩) (by simp) ⟨rfl, rfl⟩

/-- Claim C1 (amended): for every Directory state reachable from the empty
directory by any sequence of AddContact, DeleteContact and ImportFromJSON
operations (no UpdateContact), no two stored contacts have both the same
Name and the same Phone. -/
theorem c1_noDupNamePhone_reachable (ops : List Op)
    (h : ∀ op ∈ ops, op.isUpdate = false) : NoDupNamePhone (runOps ops) :=
  noDupNamePhone_of_goodStore _ (goodStore_runOps ops h)

/-- Witness for the amended C1 theorem at a concrete operation sequence. -/
theorem c1_noDupNamePhone_reachable_witness :
    NoDupNamePhone (runOps
      [.add "Dupont" "Jean" "0123456789", .add "Dupont" "Pierre" "0987654321",
       .delete "Dupont", .importJSON [⟨"Bernard", "Jean", "0654321876"⟩]]) :=
  c1_noDupNamePhone_reachable _ (by decide)

/-- Claim C2 (counterexample): the claim as stated is false on the code.
On the reachable state holding the contacts {A,x,2} (under stale key
"A_1") and {A,y,2} (under key "A_2"), export writes both contacts, but a
fresh import rebuilds both under the same composite key "A_2", so the
second overwrites the first and the contact {A,x,2} is lost. -/
theorem c2_counterexample :
    (⟨"A", "x", "2"⟩ : Contact) ∈
      ListContacts (runOps [.add "A" "x" "1", .update "A" "" "2", .add "A" "y" "2"]) ∧
    (⟨"A", "x", "2"⟩ : Contact) ∉
      ListContacts (ImportFromJSON
        (ExportToJSON (fun _ => none)
          (runOps [.add "A" "x" "1", .update "A" "" "2", .add "A" "y" "2"])
          "data/contacts.json").1
        NewDirectory "data/contacts.json").1 := by
  decide

/-- Claim C2 (amended): for every Directory whose stored contacts have
pairwise-distinct composite keys rebuilt from their own Name and Phone
(true of every state the stale-key update anomaly has not touched),
ExportToJSON followed by ImportFromJSON on a fresh Directory succeeds and
yields a store with exactly the same set of Contact values. -/
theorem c2_roundTrip (fs : FS) (d : Directory) (path : String)
    (h : (d.contacts.map fun e => compositeKey e.2.Name e.2.Phone).Nodup) :
    (ImportFromJSON (ExportToJSON fs d path).1 NewDirectory path).2 = none ∧
    ∀ c : Contact,
      c ∈ ListContacts (ImportFromJSON (ExportToJSON fs d path).1 NewDirectory path).1 ↔
        c ∈ ListContacts d := by
  have hfs : (ExportToJSON fs d path).1 path
      = some (.jsonContacts (ListContacts d)) := by simp [ExportToJSON]
  have hnodup : ((ListContacts d).map fun c => compositeKey c.Name c.Phone).Nodup := by
    simpa [ListContacts, List.map_map, Function.comp] using h
  have himp : ImportFromJSON (ExportToJSON fs d path).1 NewDirectory path
      = (⟨rebuildStore (ListContacts d)⟩, none) := by
    unfold ImportFromJSON
    rw [hfs]
  rw [himp]
  refine ⟨rfl, fun c => ?_⟩
  show c ∈ ListContacts ⟨rebuildStore (ListContacts d)⟩ ↔ c ∈ ListContacts d
  rw [show ListContacts ⟨rebuildStore (ListContacts d)⟩
      = (rebuildStore (ListContacts d)).map Prod.snd from rfl,
    rebuildStore_of_nodup hnodup]
  simp [List.map_map, Function.comp]

/-- Witness for the amended C2 theorem at a concrete directory. -/
theorem c2_roundTrip_witness :
    (ImportFromJSON
      (ExportToJSON (fun _ => none) ⟨[("A_1", ⟨"A", "x", "1"⟩)]⟩ "f").1
      NewDirectory "f").2 = none :=
  (c2_roundTrip (fun _ => none) ⟨[("A_1", ⟨"A", "x", "1"⟩)]⟩ "f" (by decide)).1

/-- Claim C3: for every Directory containing a contact whose Name equals
`name`, UpdateContact succeeds and mutates the first such contact in place:
First becomes newFirst unless newFirst is empty (then unchanged), likewise
Phone; Name is unchanged; the contact keeps its original composite key and
all other entries are untouched. Without such a contact, UpdateContact
fails with the not-found error. -/
theorem c3_updateContact_spec (d : Directory) (name newFirst newPhone : String) :
    ((∃ e ∈ d.contacts, e.2.Name = name) →
      ∃ l₁ k c l₂,
        d.contacts = l₁ ++ (k, c) :: l₂ ∧ (∀ e ∈ l₁, e.2.Name ≠ name) ∧
        c.Name = name ∧
        (applyUpdate c newFirst newPhone).Name = c.Name ∧
        (applyUpdate c newFirst newPhone).First
          = (if newFirst = "" then c.First else newFirst) ∧
        (applyUpdate c newFirst newPhone).Phone
          = (if newPhone = "" then c.Phone else newPhone) ∧
        UpdateContact d name newFirst newPhone
          = (⟨l₁ ++ (k, applyUpdate c newFirst newPhone) :: l₂⟩, none)) ∧
    ((∀ e ∈ d.contacts, e.2.Name ≠ name) →
      UpdateContact d name newFirst newPhone = (d, some "contact not found")) := by
  constructor
  · rintro ⟨e, he, hname⟩
    cases hu : updateLoop name newFirst newPhone d.contacts with
    | none => exact absurd hname (updateLoop_eq_none.mp hu e he)
    | some l' =>
      obtain ⟨l₁, k, c, l₂, h1, h2, h3, h4⟩ := updateLoop_eq_some hu
      refine ⟨l₁, k, c, l₂, h1, h2, h3, rfl, ?_, ?_, ?_⟩
      · by_cases hf : newFirst = "" <;> simp [applyUpdate, hf]
      · by_cases hp : newPhone = "" <;> simp [applyUpdate, hp]
      · unfold UpdateContact
        rw [hu, h4]
  · intro hnone
    unfold UpdateContact
    rw [updateLoop_eq_none.mpr hnone]

/-- Witness for the C3 theorem: the found branch on a one-contact directory
and the not-found branch on the empty directory. -/
theorem c3_updateContact_spec_witness :
    (∃ l₁ k c l₂,
      (Directory.mk [("Smith_1", ⟨"Smith", "John", "1"⟩)]).contacts
          = l₁ ++ (k, c) :: l₂ ∧ (∀ e ∈ l₁, e.2.Name ≠ "Smith") ∧
      c.Name = "Smith" ∧
      (applyUpdate c "Jane" "2").Name = c.Name ∧
      (applyUpdate c "Jane" "2").First
        = (if ("Jane" : String) = "" then c.First else "Jane") ∧
      (applyUpdate c "Jane" "2").Phone
        = (if ("2" : String) = "" then c.Phone else "2") ∧
      UpdateContact ⟨[("Smith_1", ⟨"Smith", "John", "1"⟩)]⟩ "Smith" "Jane" "2"
          = (⟨l₁ ++ (k, applyUpdate c "Jane" "2") :: l₂⟩, none)) ∧
    UpdateContact NewDirectory "Smith" "Jane" "2"
      = (NewDirectory, some "contact not found") :=
  ⟨(c3_updateContact_spec ⟨[("Smith_1", ⟨"Smith", "John", "1"⟩)]⟩ "Smith" "Jane" "2").1
      ⟨("Smith_1", ⟨"Smith", "John", "1"⟩), by decide, rfl⟩,
    (c3_updateContact_spec NewDirectory "Smith" "Jane" "2").2 (by decide)⟩

/-- Claim C4: with all three fields non-empty, AddContact fails with the
duplicate error exactly when the composite key name+phone is already
present, and otherwise appends the new contact, increasing ContactCount by
one; with any empty field it fails with the validation error and leaves
ContactCount unchanged. -/
theorem c4_addContact_spec (d : Directory) (name first phone : String) :
    ((name = "" ∨ first = "" ∨ phone = "") →
      AddContact d name first phone = (d, some "all fields are required") ∧
      ContactCount (AddContact d name first phone).1 = ContactCount d) ∧
    (name ≠ "" → first ≠ "" → phone ≠ "" →
      ((∃ e ∈ d.contacts, e.1 = compositeKey name phone) →
        AddContact d name first phone
          = (d, some "a contact with this name and phone already exists")) ∧
      ((∀ e ∈ d.contacts, e.1 ≠ compositeKey name phone) →
        AddContact d name first phone
          = (⟨d.contacts ++ [(compositeKey name phone, ⟨name, first, phone⟩)]⟩, none) ∧
        ContactCount (AddContact d name first phone).1 = ContactCount d + 1)) := by
  rw [show AddContact d name first phone
      = if name = "" ∨ first = "" ∨ phone = "" then (d, some "all fields are required")
        else if hasKey d.contacts (compositeKey name phone)
          then (d, some "a contact with this name and phone already exists")
          else (⟨d.contacts ++ [(compositeKey name phone, ⟨name, first, phone⟩)]⟩, none)
      from rfl]
  constructor
  · intro h1
    rw [if_pos h1]
    exact ⟨rfl, rfl⟩
  · intro hn hf hp
    have h1 : ¬(name = "" ∨ first = "" ∨ phone = "") := by simp [hn, hf, hp]
    rw [if_neg h1]
    constructor
    · rintro ⟨e, he, hk⟩
      rw [if_pos (hasKey_eq_true.mpr ⟨e, he, hk⟩)]
    · intro hfresh
      rw [if_neg (by simp [hasKey_eq_false.mpr hfresh])]
      exact ⟨rfl, by simp [ContactCount]⟩

/-- Witness for the C4 theorem: empty-field failure, duplicate failure on
the identical name+phone, and success with the same name but a different
phone. -/
theorem c4_addContact_spec_witness :
    AddContact ⟨[]⟩ "" "Jean" "1" = (⟨[]⟩, some "all fields are required") ∧
    AddContact ⟨[("Bernard_0654321876", ⟨"Bernard", "Jean", "0654321876"⟩)]⟩
        "Bernard" "Paul" "0654321876"
      = (⟨[("Bernard_0654321876", ⟨"Bernard", "Jean", "0654321876"⟩)]⟩,
         some "a contact with this name and phone already exists") ∧
    AddContact ⟨[("Bernard_0654321876", ⟨"Bernard", "Jean", "0654321876"⟩)]⟩
        "Bernard" "Pierre" "11111"
      = (⟨[("Bernard_0654321876", ⟨"Bernard", "Jean", "0654321876"⟩),
           ("Bernard_11111", ⟨"Bernard", "Pierre", "11111"⟩)]⟩, none) :=
  ⟨((c4_addContact_spec ⟨[]⟩ "" "Jean" "1").1 (Or.inl rfl)).1,
   ((c4_addContact_spec ⟨[("Bernard_0654321876", ⟨"Bernard", "Jean", "0654321876"⟩)]⟩
        "Bernard" "Paul" "0654321876").2
      (by decide) (by decide) (by decide)).1 (by decide),
   (((c4_addContact_spec ⟨[("Bernard_0654321876", ⟨"Bernard", "Jean", "0654321876"⟩)]⟩
        "Bernard" "Pierre" "11111").2
      (by decide) (by decide) (by decide)).2 (by decide)).1⟩

/-- Claim C5 (counterexample): the claim as stated is false on the code.
Importing a well-formed array holding two contacts that share a composite
key — {A,x,1} and {A,y,1}, both keyed "A_1" — succeeds, but the rebuilt
store does not contain {A,x,1} (the later contact overwrote it), so the
store does not hold exactly the imported contacts. -/
theorem c5_counterexample :
    (ImportFromJSON
        (fun _ => some (.jsonContacts [⟨"A", "x", "1"⟩, ⟨"A", "y", "1"⟩]))
        NewDirectory "data/contacts.json").2 = none ∧
    (⟨"A", "x", "1"⟩ : Contact) ∉ ListContacts
      (ImportFromJSON
        (fun _ => some (.jsonContacts [⟨"A", "x", "1"⟩, ⟨"A", "y", "1"⟩]))
        NewDirectory "data/contacts.json").1 := by
  decide

/-- Claim C5 (amended): ImportFromJSON fails with the distinct
"file not found" error when the path does not exist, while the legacy
LoadFromJSON succeeds as a silent no-op; on a successful parse it replaces
the entire store (independently of its previous contents) with the parsed
contacts keyed by composite keys rebuilt from each contact's Name and
Phone, a later contact overwriting an earlier one with the same composite
key — so the store holds exactly the parsed contacts whenever their
composite keys are pairwise distinct. -/
theorem c5_importFromJSON_spec (fs : FS) (d : Directory) (path : String) :
    (fs path = none →
      ImportFromJSON fs d path = (d, some "file not found") ∧
      LoadFromJSON fs d path = (d, none)) ∧
    (∀ cs : List Contact, fs path = some (.jsonContacts cs) →
      ImportFromJSON fs d path = (⟨rebuildStore cs⟩, none) ∧
      (∀ e ∈ rebuildStore cs, e.1 = compositeKey e.2.Name e.2.Phone ∧ e.2 ∈ cs) ∧
      ((cs.map fun c => compositeKey c.Name c.Phone).Nodup →
        ListContacts ⟨rebuildStore cs⟩ = cs)) := by
  constructor
  · intro h
    constructor
    · unfold ImportFromJSON
      rw [h]
    · unfold LoadFromJSON
      rw [h]
  · intro cs h
    refine ⟨by unfold ImportFromJSON; rw [h], fun e he => mem_rebuildStore he,
      fun hn => ?_⟩
    show (rebuildStore cs).map Prod.snd = cs
    rw [rebuildStore_of_nodup hn]
    simp [List.map_map, Function.comp_def]

/-- Witness for the C5 theorem: the missing-file branch of both variants
and the success branch on a concrete file. -/
theorem c5_importFromJSON_spec_witness :
    (ImportFromJSON (fun _ => none) NewDirectory "missing.json"
        = (NewDirectory, some "file not found") ∧
      LoadFromJSON (fun _ => none) NewDirectory "missing.json"
        = (NewDirectory, none)) ∧
    ImportFromJSON (fun _ => some (.jsonContacts [⟨"A", "x", "1"⟩]))
        NewDirectory "contacts.json"
      = (⟨rebuildStore [⟨"A", "x", "1"⟩]⟩, none) :=
  ⟨(c5_importFromJSON_spec (fun _ => none) NewDirectory "missing.json").1 rfl,
   ((c5_importFromJSON_spec (fun _ => some (.jsonContacts [⟨"A", "x", "1"⟩]))
      NewDirectory "contacts.json").2 [⟨"A", "x", "1"⟩] rfl).1⟩

/-- Claim C6: DeleteContact on a Directory containing a contact with the
given last name succeeds, removes exactly one contact with that name
(leaving every other entry unchanged) and decreases ContactCount by one;
on a Directory with no such contact it fails with the not-found error
(and, the state being returned unchanged, ContactCount is unchanged). -/
theorem c6_deleteContact_spec (d : Directory) (name : String) :
    ((∃ e ∈ d.contacts, e.2.Name = name) →
      ∃ l₁ k c l₂,
        d.contacts = l₁ ++ (k, c) :: l₂ ∧ (∀ e ∈ l₁, e.2.Name ≠ name) ∧
        c.Name = name ∧
        DeleteContact d name = (⟨l₁ ++ l₂⟩, none) ∧
        ContactCount (DeleteContact d name).1 + 1 = ContactCount d) ∧
    ((∀ e ∈ d.contacts, e.2.Name ≠ name) →
      DeleteContact d name = (d, some "contact not found")) := by
  constructor
  · rintro ⟨e, he, hname⟩
    cases hdl : deleteLoop name d.contacts with
    | none => exact absurd hname (deleteLoop_eq_none.mp hdl e he)
    | some l' =>
      obtain ⟨l₁, k, c, l₂, h1, h2, h3, h4⟩ := deleteLoop_eq_some hdl
      have hdel : DeleteContact d name = (⟨l₁ ++ l₂⟩, none) := by
        unfold DeleteContact
        rw [hdl, h4]
      refine ⟨l₁, k, c, l₂, h1, h2, h3, hdel, ?_⟩
      rw [hdel]
      show (l₁ ++ l₂).length + 1 = ContactCount d
      rw [show ContactCount d = d.contacts.length from rfl, h1]
      simp
      omega
  · intro hnone
    unfold DeleteContact
    rw [deleteLoop_eq_none.mpr hnone]

/-- Witness for the C6 theorem: deletion from a one-contact directory and
the not-found branch on the empty directory. -/
theorem c6_deleteContact_spec_witness :
    (∃ l₁ k c l₂,
      (Directory.mk [("Smith_1", ⟨"Smith", "John", "1"⟩)]).contacts
          = l₁ ++ (k, c) :: l₂ ∧ (∀ e ∈ l₁, e.2.Name ≠ "Smith") ∧
      c.Name = "Smith" ∧
      DeleteContact ⟨[("Smith_1", ⟨"Smith", "John", "1"⟩)]⟩ "Smith"
          = (⟨l₁ ++ l₂⟩, none) ∧
      ContactCount (DeleteContact ⟨[("Smith_1", ⟨"Smith", "John", "1"⟩)]⟩ "Smith").1 + 1
          = ContactCount ⟨[("Smith_1", ⟨"Smith", "John", "1"⟩)]⟩) ∧
    DeleteContact NewDirectory "Smith" = (NewDirectory, some "contact not found") :=
  ⟨(c6_deleteContact_spec ⟨[("Smith_1", ⟨"Smith", "John", "1"⟩)]⟩ "Smith").1
      ⟨("Smith_1", ⟨"Smith", "John", "1"⟩), by decide, rfl⟩,
    (c6_deleteContact_spec NewDirectory "Smith").2 (by decide)⟩

/-- Claim C7: SearchContact returns some stored contact one of whose three
fields exactly equals the term, with found = true, whenever such a contact
exists; otherwise it returns the zero-value Contact and false. -/
theorem c7_searchContact_spec (d : Directory) (term : String) :
    ((∃ e ∈ d.contacts, e.2.Name = term ∨ e.2.First = term ∨ e.2.Phone = term) →
      ∃ c, SearchContact d term = (c, true) ∧ (∃ e ∈ d.contacts, e.2 = c) ∧
        (c.Name = term ∨ c.First = term ∨ c.Phone = term)) ∧
    ((∀ e ∈ d.contacts, ¬(e.2.Name = term ∨ e.2.First = term ∨ e.2.Phone = term)) →
      SearchContact d term = (⟨"", "", ""⟩, false)) := by
  constructor
  · rintro ⟨e, he, hm⟩
    cases hs : searchLoop term d.contacts with
    | none => exact absurd hm (searchLoop_eq_none.mp hs e he)
    | some c =>
      obtain ⟨hex, hmm⟩ := searchLoop_eq_some hs
      refine ⟨c, ?_, hex, hmm⟩
      unfold SearchContact
      rw [hs]
  · intro h
    unfold SearchContact
    rw [searchLoop_eq_none.mpr h]

/-- Witness for the C7 theorem: a match on the First field and the
not-found branch on the empty directory. -/
theorem c7_searchContact_spec_witness :
    (∃ c, SearchContact
        ⟨[("Bernard_0654321876", ⟨"Bernard", "Jean", "0654321876"⟩)]⟩ "Jean"
          = (c, true) ∧
      (∃ e ∈ (Directory.mk
          [("Bernard_0654321876", ⟨"Bernard", "Jean", "0654321876"⟩)]).contacts,
        e.2 = c) ∧
      (c.Name = "Jean" ∨ c.First = "Jean" ∨ c.Phone = "Jean")) ∧
    SearchContact NewDirectory "Jean" = (⟨"", "", ""⟩, false) :=
  ⟨(c7_searchContact_spec
      ⟨[("Bernard_0654321876", ⟨"Bernard", "Jean", "0654321876"⟩)]⟩ "Jean").1
      ⟨("Bernard_0654321876", ⟨"Bernard", "Jean", "0654321876"⟩), by decide, by decide⟩,
    (c7_searchContact_spec NewDirectory "Jean").2 (by decide)⟩

/-- Claim C8: whenever AddContact, UpdateContact or DeleteContact returns a
non-nil error, the store is returned exactly unchanged — each operation is
check-then-act and either fully succeeds or is a full no-op. -/
theorem c8_failure_is_noop (d : Directory) (name first phone n₂ nf np n₃ : String) :
    ((AddContact d name first phone).2.isSome = true →
      (AddContact d name first phone).1 = d) ∧
    ((UpdateContact d n₂ nf np).2.isSome = true → (UpdateContact d n₂ nf np).1 = d) ∧
    ((DeleteContact d n₃).2.isSome = true → (DeleteContact d n₃).1 = d) := by
  refine ⟨?_, ?_, ?_⟩
  · rw [show AddContact d name first phone
        = if name = "" ∨ first = "" ∨ phone = "" then (d, some "all fields are required")
          else if hasKey d.contacts (compositeKey name phone)
            then (d, some "a contact with this name and phone already exists")
            else (⟨d.contacts ++ [(compositeKey name phone, ⟨name, first, phone⟩)]⟩, none)
        from rfl]
    by_cases h1 : name = "" ∨ first = "" ∨ phone = ""
    · rw [if_pos h1]
      exact fun _ => rfl
    · rw [if_neg h1]
      by_cases h2 : hasKey d.contacts (compositeKey name phone) = true
      · rw [if_pos h2]
        exact fun _ => rfl
      · rw [if_neg h2]
        intro h
        exact absurd h (by simp)
  · unfold UpdateContact
    cases hu : updateLoop n₂ nf np d.contacts with
    | none => exact fun _ => rfl
    | some l' =>
      intro h
      exact absurd h (by simp)
  · unfold DeleteContact
    cases hdl : deleteLoop n₃ d.contacts with
    | none => exact fun _ => rfl
    | some l' =>
      intro h
      exact absurd h (by simp)

/-- Witness for the C8 theorem: each of the three operations failing on a
concrete input leaves the store unchanged. -/
theorem c8_failure_is_noop_witness :
    (AddContact ⟨[]⟩ "" "Jean" "1").1 = ⟨[]⟩ ∧
    (UpdateContact ⟨[]⟩ "X" "Y" "Z").1 = ⟨[]⟩ ∧
    (DeleteContact ⟨[]⟩ "X").1 = ⟨[]⟩ :=
  ⟨(c8_failure_is_noop ⟨[]⟩ "" "Jean" "1" "X" "Y" "Z" "X").1 (by decide),
   (c8_failure_is_noop ⟨[]⟩ "" "Jean" "1" "X" "Y" "Z" "X").2.1 (by decide),
   (c8_failure_is_noop ⟨[]⟩ "" "Jean" "1" "X" "Y" "Z" "X").2.2 (by decide)⟩

/-- Claim C9: the plain concatenation name_phone is not injective as a pair
encoding: ("A_1", "2") and ("A", "1_2") produce the same composite key, so
after adding the contact ("A_1", x, "2"), AddContact("A", y, "1_2") fails
with the duplicate error although no stored contact has Name "A" and Phone
"1_2". -/
theorem c9_compositeKey_collision :
    compositeKey "A_1" "2" = compositeKey "A" "1_2" ∧
    (AddContact (AddContact NewDirectory "A_1" "x" "2").1 "A" "y" "1_2").2
      = some "a contact with this name and phone already exists" ∧
    ¬ ∃ e ∈ (AddContact NewDirectory "A_1" "x" "2").1.contacts,
        e.2.Name = "A" ∧ e.2.Phone = "1_2" := by
  decide

/-- Claim C10: ImportFromJSON performs no non-emptiness validation: it
succeeds on every existing file that parses to a contact array, and a
contact with an empty Name is stored after import, so the
all-fields-non-empty property enforced by AddContact does not hold for
imported states. -/
theorem c10_importFromJSON_no_validation (fs : FS) (d : Directory) (path : String)
    (cs : List Contact) :
    (fs path = some (.jsonContacts cs) → (ImportFromJSON fs d path).2 = none) ∧
    (⟨"", "x", "1"⟩ : Contact) ∈ ListContacts
      (ImportFromJSON (fun _ => some (.jsonContacts [⟨"", "x", "1"⟩]))
        NewDirectory path).1 := by
  constructor
  · intro h
    unfold ImportFromJSON
    rw [h]
  · show (⟨"", "x", "1"⟩ : Contact) ∈ ListContacts ⟨rebuildStore [⟨"", "x", "1"⟩]⟩
    decide

/-- Witness for the C10 theorem at a concrete file system and file. -/
theorem c10_importFromJSON_no_validation_witness :
    (ImportFromJSON (fun _ => some (.jsonContacts [⟨"A", "B", "C"⟩]))
        NewDirectory "f").2 = none :=
  (c10_importFromJSON_no_validation
    (fun _ => some (.jsonContacts [⟨"A", "B", "C"⟩])) NewDirectory "f"
    [⟨"A", "B", "C"⟩]).1 rfl
